import Mathlib

/-!
Verification of the patchwork-to-pull-request reconciliation engine
(`create-pull-request.py`).  The script is shallowly embedded: file-system
layout, git subprocess results and the GitHub API are abstracted into an
explicit environment (`Env`), and the engine is a pure function from the
environment and the remote state to a trace of effects plus the new remote
state.  Every definition follows the corresponding Python function; the doc
comment of each definition names its source.
-/

namespace PwSync

/-! Section: Character-list primitives

`re.search` with a pattern free of metacharacters is substring search; with
`re.IGNORECASE` both sides are compared after lowering (the titles involved
are ASCII).  We implement the two searches over `List Char`.
-/

/-- Test whether the first list is a leading segment of the second. -/
def chPre : List Char → List Char → Bool
  | [], _ => true
  | _ :: _, [] => false
  | a :: as, b :: bs => a = b && chPre as bs

/-- Test whether the first list occurs contiguously anywhere in the second. -/
def chSub (n : List Char) : List Char → Bool
  | [] => n.isEmpty
  | c :: rest => chPre n (c :: rest) || chSub n rest

/-- Case-sensitive substring test on strings, as `re.search` with a
metacharacter-free pattern behaves. -/
def substr (needle hay : String) : Bool :=
  chSub needle.data hay.data

/-- Case-insensitive substring test, as `re.search(..., re.IGNORECASE)`
behaves on ASCII input. -/
def isubstr (needle hay : String) : Bool :=
  chSub (needle.data.map Char.toLower) (hay.data.map Char.toLower)

/-- Strip a literal leading segment, returning the remainder on success. -/
def stripPre : List Char → List Char → Option (List Char)
  | [], s => some s
  | _ :: _, [] => none
  | a :: as, b :: bs => if a = b then stripPre as bs else none

/-! Section: Data model

`series.json` carries `id` (int) and `name` (string; the fetch stage
`pwclient-save-series.py` replaces a null name before saving, so the engine
always sees a string).  A GitHub pull request is used through its number,
title and head-branch name; an issue through its number and title.
-/

/-- Fields of `series.json` used by the engine (`read_series_json`). -/
structure SeriesData where
  id : Nat
  name : String
deriving DecidableEq, Repr

/-- Patch-detail record from the series metadata (`find_patch_details`
result): `name`, `msgid`, `web_url`. -/
structure PatchInfo where
  name : String
  msgid : String
  webUrl : String
deriving DecidableEq, Repr

/-- An open pull request as the engine reads it (number, title, head ref). -/
structure PR where
  number : Nat
  title : String
  headRef : String
deriving DecidableEq, Repr

/-- An open issue as the engine reads it (number, title). -/
structure Issue where
  number : Nat
  title : String
deriving DecidableEq, Repr

/-- The remote repository state the engine can observe and mutate: the open
pull requests, the open issues, and a counter supplying fresh artifact
numbers. -/
structure Remote where
  prs : List PR
  issues : List Issue
  next : Nat
deriving DecidableEq, Repr

/-! Section: Title construction and parsing -/

/-- The search token `'{}:{}'.format(PR_TITLE_PREFIX, sid)` used by
`find_sid_in_prs` and `find_sid_in_issues`. -/
def sidToken (sid : Nat) : String :=
  "PW_SID:" ++ toString sid

/-- The artifact title `'[{}:{}] {}'.format(PR_TITLE_PREFIX, id, name)`
built by `generate_pr_msg` and `github_create_issue`. -/
def prTitle (s : SeriesData) : String :=
  "[" ++ sidToken s.id ++ "] " ++ s.name

/-- Model of `find_sid_in_prs`: does any open PR title contain
`PW_SID:<sid>` case-insensitively? -/
def find_sid_in_prs (prList : List PR) (sid : Nat) : Bool :=
  prList.any fun pr => isubstr (sidToken sid) pr.title

/-- Model of `find_sid_in_issues`: does any open issue title contain
`PW_SID:<sid>` case-insensitively? -/
def find_sid_in_issues (issueList : List Issue) (sid : Nat) : Bool :=
  issueList.any fun issue => isubstr (sidToken sid) issue.title

/-- Model of `find_sid_in_series`: `re.search(sid, series)` over the series
directory paths; the sid is a digit string, so this is a substring test
against each absolute path. -/
def find_sid_in_series (sid : String) (seriesDir : List String) : Bool :=
  seriesDir.any fun series => substr sid series

/-- Continue the `get_pw_sid` parse after the literal `[PW_SID:` prefix:
take one or more digits, which must be followed by `]`. -/
def pwSidOf (rest : List Char) : Option String :=
  let ds := rest.takeWhile Char.isDigit
  if ds.isEmpty then none
  else
    match rest.dropWhile Char.isDigit with
    | ']' :: _ => some ⟨ds⟩
    | _ => none

/-- Model of `get_pw_sid`: `re.search(r'^\[PW_SID:([0-9]+)\]', pr_title)`,
returning the digit string on a match and `none` otherwise. -/
def get_pw_sid (prTitleStr : String) : Option String :=
  match stripPre "[PW_SID:".data prTitleStr.data with
  | none => none
  | some rest => pwSidOf rest

/-! Section: The command runner (`git`) -/

/-- Result of the `git` wrapper: either the sentinel `-1` that the Python
function returns when `subprocess.Popen` raises `OSError` (a bare int, not
a triple), or the `(returncode, stdout, stderr)` triple. -/
inductive GitRet where
  | launchFail
  | triple (code : Int) (out err : String)
deriving DecidableEq, Repr

/-- Model of the `git` function: `none` stands for a launch failure
(`OSError` from `Popen`), `some (rc, out, err)` for a completed subprocess.
The wrapper returns `(rc, out, err)` when `rc` is nonzero, `(1, out, err)`
when `rc` is zero but stderr is nonempty, and `(0, out, err)` otherwise; it
never raises on a nonzero exit. -/
def git (launched : Option (Int × String × String)) : GitRet :=
  match launched with
  | none => .launchFail
  | some (rc, out, err) =>
    if rc ≠ 0 then .triple rc out err
    else if err ≠ "" then .triple 1 out err
    else .triple 0 out err

/-! Section: Effects

Every externally visible action of one run, in program order.  Git
checkouts and `git am` act only on the local clone; pushes, PR/issue
creation and closing, and branch deletion mutate the remote; `writeFile`
records the one file the engine writes (`generate_pr_msg`); `email` records
a sent notification mail.
-/

/-- One externally visible action of the engine. -/
inductive Effect where
  | gitCheckout (branch : String)
  | gitCheckoutB (branch : String)
  | gitAm (patchFile : String)
  | gitAmAbort
  | gitPush (branch : String) (code : Int)
  | email (patchName : String)
  | writeFile (path : String)
  | createPR (title base head : String)
  | createIssue (title body : String)
  | closePR (number : Nat)
  | deleteBranch (ref : String)
  | closeIssue (number : Nat)
deriving DecidableEq, Repr

/-- Does the effect mutate remote state?  A push attempt whose exit code is
nonzero transferred nothing, so only a successful push counts. -/
def isMutation : Effect → Bool
  | .createPR _ _ _ => true
  | .createIssue _ _ => true
  | .closePR _ => true
  | .closeIssue _ => true
  | .deleteBranch _ => true
  | .gitPush _ code => code = 0
  | _ => false

/-- Is the effect `closeIssue`?  (`clean_up_issues` exists in the source but
is never invoked, so the engine never emits this effect.) -/
def isCloseIssue : Effect → Bool
  | .closeIssue _ => true
  | _ => false

/-! Section: Environment

The local side of one run: the sorted series directory list
(`get_dir_list`), the parsed `series.json` of each directory
(`read_series_json`; `none` when the file is missing), the sorted patch
file list of each directory, the outcome of `git am` per patch file, the
exit code of `git push` per branch, the patch-detail lookup of
`find_patch_details` (a pure function of the patch file text and the series
metadata), whether `git rev-parse origin/master` succeeds, and whether the
`EMAIL_TOKEN` credential is present.  The claims under study quantify over
runs in which this data does not change, which the model expresses by
reusing one `Env` value.
-/

/-- The fixed local environment of a run. -/
structure Env where
  baseBranch : String
  seriesDirs : List String
  seriesJson : String → Option SeriesData
  patchDirs : String → List String
  amResult : String → Int × String × String
  pushCode : String → Int
  patchDetails : String → SeriesData → Option PatchInfo
  revParseOk : Bool
  emailToken : Bool

/-! Section: Notifier and apply engine -/

/-- Model of `notify_am_fail`.  `none` models the uncaught `TypeError`: when
`find_patch_details` returns `None` the function only logs and falls
through, and `patch['name']` then raises — unless `git rev-parse` failed
first, in which case the function returns early.  With patch details
present, an email effect is produced exactly when `EMAIL_TOKEN` is set
(`send_email` logs a warning and no-ops without it). -/
def notify_am_fail (env : Env) (patchFile : String) (s : SeriesData) :
    Option (List Effect) :=
  match env.patchDetails patchFile s with
  | none => if env.revParseOk then none else some []
  | some pd =>
    if env.revParseOk then
      if env.emailToken then some [Effect.email pd.name] else some []
    else some []

/-- Body of the issue created by `apply_patches`:
`"stdout:\n{}\nstderr:\n{}".format(stdout, stderr)`. -/
def issueBody (out err : String) : String :=
  "stdout:\n" ++ out ++ "\nstderr:\n" ++ err

/-- Outcome of `apply_patches`: all patches applied (the Python function
returns `0`), the first failure (it returns the failing `git am` exit
code, after `git am --abort`, the notification, and `github_create_issue`),
or an uncaught exception escaping from `notify_am_fail`. -/
inductive ApplyRes where
  | ok (effs : List Effect)
  | fail (code : Int) (effs : List Effect)
  | crash (effs : List Effect)
deriving DecidableEq, Repr

/-- Model of `apply_patches`: apply each patch file in list order with
`git am`; on the first nonzero result run `git am --abort`, call
`notify_am_fail`, create the failure issue and return the failing code,
attempting no later patch. -/
def apply_patches (env : Env) (s : SeriesData) : List String → ApplyRes
  | [] => .ok []
  | pf :: rest =>
    let r := env.amResult pf
    if r.1 = 0 then
      match apply_patches env s rest with
      | .ok es => .ok (Effect.gitAm pf :: es)
      | .fail c es => .fail c (Effect.gitAm pf :: es)
      | .crash es => .crash (Effect.gitAm pf :: es)
    else
      match notify_am_fail env pf s with
      | none => .crash [Effect.gitAm pf, Effect.gitAmAbort]
      | some nes =>
        .fail r.1 ([Effect.gitAm pf, Effect.gitAmAbort] ++ nes ++
          [Effect.createIssue (prTitle s) (issueBody r.2.1 r.2.2)])

/-- The value the Python `apply_patches` returns to its caller: its exit
code, or `none` when the uncaught exception escapes instead of a return. -/
def applyRet (env : Env) (s : SeriesData) (patches : List String) : Option Int :=
  match apply_patches env s patches with
  | .ok _ => some 0
  | .fail c _ => some c
  | .crash _ => none

/-! Section: Per-series step of `manage_pull_request` -/

/-- Outcome of the loop body of `manage_pull_request` for one series
directory: skipped with no effects, aborted by an uncaught exception,
finished having created a pull request, or finished having created a
failure issue. -/
inductive SOut where
  | skip
  | crash (effs : List Effect)
  | pr (effs : List Effect) (s : SeriesData)
  | issue (effs : List Effect) (s : SeriesData)
deriving DecidableEq, Repr

/-- One iteration of the series loop in `manage_pull_request`: skip when
`series.json` is missing, when an open PR or issue already carries the
series id (checked against the snapshots taken before the loop), or when
the patch list is empty; otherwise create the series branch, run
`apply_patches`, and — because the `except subprocess.CalledProcessError`
around `git("push", ...)` can never fire (`git` returns a value and does
not raise) — proceed to `generate_pr_msg` and `github_create_pr` whatever
the push exit code was. -/
def seriesStep (env : Env) (prList : List PR) (issueList : List Issue)
    (p : String) : SOut :=
  match env.seriesJson p with
  | none => .skip
  | some s =>
    if find_sid_in_prs prList s.id then .skip
    else if find_sid_in_issues issueList s.id then .skip
    else
      match env.patchDirs p with
      | [] => .skip
      | q :: qs =>
        let branch := toString s.id
        match apply_patches env s (q :: qs) with
        | .ok es =>
          .pr (Effect.gitCheckoutB branch :: es ++
            [Effect.gitPush branch (env.pushCode branch),
             Effect.writeFile (p ++ "/pr_msg"),
             Effect.createPR (prTitle s) env.baseBranch branch,
             Effect.gitCheckout env.baseBranch]) s
        | .fail _ es =>
          .issue (Effect.gitCheckoutB branch :: es ++
            [Effect.gitCheckout env.baseBranch]) s
        | .crash es => .crash (Effect.gitCheckoutB branch :: es)

/-- Accumulated result of the series loop: the effect trace, the series for
which a PR was created, the series for which a failure issue was created,
and whether an uncaught exception ended the loop early. -/
structure LoopRes where
  effs : List Effect
  prSeries : List SeriesData
  issueSeries : List SeriesData
  crashed : Bool
deriving DecidableEq, Repr

/-- The series loop of `manage_pull_request` over the directory list, with
the PR and issue snapshots fixed at entry; an uncaught exception aborts the
remaining iterations. -/
def runLoop (env : Env) (prList : List PR) (issueList : List Issue) :
    List String → LoopRes
  | [] => ⟨[], [], [], false⟩
  | p :: rest =>
    match seriesStep env prList issueList p with
    | .skip => runLoop env prList issueList rest
    | .crash es => ⟨es, [], [], true⟩
    | .pr es s =>
      let L := runLoop env prList issueList rest
      ⟨es ++ L.effs, s :: L.prSeries, L.issueSeries, L.crashed⟩
    | .issue es s =>
      let L := runLoop env prList issueList rest
      ⟨es ++ L.effs, L.prSeries, s :: L.issueSeries, L.crashed⟩

/-! Section: Cleanup pass (`clean_up_pr`) -/

/-- Result of `clean_up_pr`: the close/delete effects, the PRs still open
afterwards, and whether the pass died with the uncaught `TypeError` that
`find_sid_in_series(None, ...)` raises on a nonempty directory list. -/
structure CleanRes where
  effs : List Effect
  survivors : List PR
  crashed : Bool
deriving DecidableEq, Repr

/-- Model of `clean_up_pr`: for each open PR, parse the series id from the
title with `get_pw_sid`; close the PR and delete its head branch when the
id does not occur in any series directory path.  A title without the marker
yields `None`, which `find_sid_in_series` then uses as a regex:
`re.search(None, path)` raises `TypeError` on the first path, aborting the
pass — except when the directory list is empty, where the loop body never
runs, `False` is returned, and the unmarked PR is closed. -/
def clean_up_pr (seriesPathList : List String) : List PR → CleanRes
  | [] => ⟨[], [], false⟩
  | pr :: rest =>
    match get_pw_sid pr.title with
    | none =>
      match seriesPathList with
      | [] =>
        let C := clean_up_pr seriesPathList rest
        ⟨Effect.closePR pr.number :: Effect.deleteBranch pr.headRef :: C.effs,
          C.survivors, C.crashed⟩
      | _ :: _ => ⟨[], pr :: rest, true⟩
    | some sid =>
      if find_sid_in_series sid seriesPathList then
        let C := clean_up_pr seriesPathList rest
        ⟨C.effs, pr :: C.survivors, C.crashed⟩
      else
        let C := clean_up_pr seriesPathList rest
        ⟨Effect.closePR pr.number :: Effect.deleteBranch pr.headRef :: C.effs,
          C.survivors, C.crashed⟩

/-! Section: PR message generation (`generate_pr_msg`)

The Python function reads the cover letter if `cover_letter` exists in the
series directory, else the first patch file, line by line.  Each line is
`strip(" \t")`-ed; since every line of an mbox patch ends in a newline,
this strips leading blanks only, and the stripped line equals `os.linesep`
exactly when the line is whitespace.  The first such blank line starts
collection; a line containing `---` anywhere stops the scan — the check
runs even before collection starts.  We model the file as the list of its
lines without their terminating newlines, and the collected message as the
list of collected (stripped) lines.
-/

/-- A line after `line.strip(" \t")`, with the terminating newline removed:
leading spaces and tabs are dropped (the newline shields the right end). -/
def stripLead (l : String) : String :=
  ⟨l.data.dropWhile fun c => c = ' ' || c = '\t'⟩

/-- Does `re.search("---", line)` match, i.e. does the line contain three
consecutive dashes anywhere? -/
def dash3 (l : String) : Bool :=
  substr "---" l

/-- The line scan of `generate_pr_msg`: `saveMsg` starts `False`, turns
`True` at the first blank line, a `---` line ends the scan, and stripped
lines seen while `saveMsg` is `True` are collected. -/
def collectMsg : Bool → List String → List String
  | _, [] => []
  | saveMsg, l :: rest =>
    let s := stripLead l
    if s.data.isEmpty && !saveMsg then collectMsg true rest
    else if dash3 s then []
    else if saveMsg then s :: collectMsg true rest
    else collectMsg false rest

/-- The PR message file that `generate_pr_msg` writes: first line the
title, then a blank line, then the collected commit message
(`github_create_pr` reads the first line back as the PR title and the rest
as the body). -/
structure PrMsg where
  title : String
  bodyLines : List String
deriving DecidableEq, Repr

/-- Model of `generate_pr_msg`: the title is
`'[{}:{}] {}'.format(PR_TITLE_PREFIX, id, name)`; the body is collected
from the cover letter when a `cover_letter` file exists in the series
directory, else from the first patch file. -/
def generate_pr_msg (s : SeriesData) (hasCoverLetter : Bool)
    (coverLines firstPatchLines : List String) : PrMsg :=
  ⟨prTitle s, collectMsg false (if hasCoverLetter then coverLines else firstPatchLines)⟩

/-! Section: One full run of `manage_pull_request` -/

/-- Number the pull requests created during the loop (GitHub assigns the
numbers; they are fresh and increasing). -/
def numberPRs : Nat → List SeriesData → List PR
  | _, [] => []
  | n, s :: rest => ⟨n, prTitle s, toString s.id⟩ :: numberPRs (n + 1) rest

/-- Number the issues created during the loop. -/
def numberIssues : Nat → List SeriesData → List Issue
  | _, [] => []
  | n, s :: rest => ⟨n, prTitle s⟩ :: numberIssues (n + 1) rest

/-- Result of one invocation of `manage_pull_request`: the effect trace,
the remote state afterwards, and whether the run finished (rather than
dying on an uncaught exception in the loop or the cleanup pass). -/
structure RunRes where
  effects : List Effect
  remote : Remote
  completed : Bool
deriving Repr

/-- The series loop of a run, at the snapshots taken from `r0`. -/
def loopOf (env : Env) (r0 : Remote) : LoopRes :=
  runLoop env r0.prs r0.issues env.seriesDirs

/-- The pull requests created during the loop of a run. -/
def createdPrsOf (env : Env) (r0 : Remote) : List PR :=
  numberPRs r0.next (loopOf env r0).prSeries

/-- The issues created during the loop of a run. -/
def createdIssuesOf (env : Env) (r0 : Remote) : List Issue :=
  numberIssues (r0.next + (loopOf env r0).prSeries.length)
    (loopOf env r0).issueSeries

/-- The artifact-number counter after the loop of a run. -/
def nextOf (env : Env) (r0 : Remote) : Nat :=
  r0.next + (loopOf env r0).prSeries.length + (loopOf env r0).issueSeries.length

/-- The cleanup pass of a run: `clean_up_pr` re-fetches the open pull
requests, which now also contain those created during the loop.  Note that
`manage_pull_request` never calls `clean_up_issues`, so issues are not
examined. -/
def cleanOf (env : Env) (r0 : Remote) : CleanRes :=
  clean_up_pr env.seriesDirs (r0.prs ++ createdPrsOf env r0)

/-- Model of one invocation of `manage_pull_request`: check out the base
branch, run the series loop against the PR/issue snapshots, then run
`clean_up_pr`.  An uncaught exception in the loop skips the cleanup pass
and marks the run as not completed. -/
def manage_pull_request (env : Env) (r0 : Remote) : RunRes :=
  if (loopOf env r0).crashed then
    ⟨Effect.gitCheckout env.baseBranch :: (loopOf env r0).effs,
      ⟨r0.prs ++ createdPrsOf env r0, r0.issues ++ createdIssuesOf env r0,
        nextOf env r0⟩,
      false⟩
  else
    ⟨(Effect.gitCheckout env.baseBranch :: (loopOf env r0).effs) ++
        (cleanOf env r0).effs,
      ⟨(cleanOf env r0).survivors, r0.issues ++ createdIssuesOf env r0,
        nextOf env r0⟩,
      !(cleanOf env r0).crashed⟩

/-! Section: Concrete fixtures

Small environments used to evaluate the engine on closed inputs.  Series
directories are named by their series id, as the fetch stage
(`pwclient-save-series.py`, `series_path = os.path.join(save_path, "%d" %
series_detail["id"])`) produces them — except where a fixture deliberately
departs from that layout.
-/

/-- Local state with one series, directory `/series/12` with id 12, whose
single patch applies cleanly and whose push succeeds. -/
def cexEnv1 : Env :=
  { baseBranch := "master"
    seriesDirs := ["/series/12"]
    seriesJson := fun p => if p = "/series/12" then some ⟨12, "n12"⟩ else none
    patchDirs := fun p => if p = "/series/12" then ["/series/12/patches/0001"] else []
    amResult := fun _ => (0, "", "")
    pushCode := fun _ => 0
    patchDetails := fun _ _ => none
    revParseOk := true
    emailToken := false }

/-- Remote state holding one open PR whose title token `PW_SID:123`
contains the local series token `PW_SID:12` as a substring. -/
def cexR1 : Remote := ⟨[⟨1, "[PW_SID:123] t", "123"⟩], [], 10⟩

/-- Local state with one well-named series, `/series/7`, that applies and
pushes cleanly. -/
def wEnv1 : Env :=
  { baseBranch := "master"
    seriesDirs := ["/series/7"]
    seriesJson := fun p => if p = "/series/7" then some ⟨7, "n7"⟩ else none
    patchDirs := fun p => if p = "/series/7" then ["/series/7/patches/0001"] else []
    amResult := fun _ => (0, "", "")
    pushCode := fun _ => 0
    patchDetails := fun _ _ => none
    revParseOk := true
    emailToken := false }

/-- An empty remote. -/
def wR1 : Remote := ⟨[], [], 1⟩

/-- Local state with series 40 in directory `/series/40`. -/
def env2w : Env :=
  { baseBranch := "master"
    seriesDirs := ["/series/40"]
    seriesJson := fun p => if p = "/series/40" then some ⟨40, "x"⟩ else none
    patchDirs := fun p => if p = "/series/40" then ["/series/40/patches/0001"] else []
    amResult := fun _ => (0, "", "")
    pushCode := fun _ => 0
    patchDetails := fun _ _ => none
    revParseOk := true
    emailToken := false }

/-- Local series collection `{2, 3}` for the cleanup-convergence scenario. -/
def env3 : Env :=
  { baseBranch := "master"
    seriesDirs := ["/series/2", "/series/3"]
    seriesJson := fun p =>
      if p = "/series/2" then some ⟨2, "n2"⟩
      else if p = "/series/3" then some ⟨3, "n3"⟩
      else none
    patchDirs := fun _ => ["p"]
    amResult := fun _ => (0, "", "")
    pushCode := fun _ => 0
    patchDetails := fun _ _ => none
    revParseOk := true
    emailToken := false }

/-- Remote PRs for series 1, 2, 3 (all marked); local collection is {2,3}. -/
def rem3a : Remote :=
  ⟨[⟨1, "[PW_SID:1] a", "1"⟩, ⟨2, "[PW_SID:2] b", "2"⟩, ⟨3, "[PW_SID:3] c", "3"⟩],
    [], 20⟩

/-- Remote PRs for series 2, 3 and an open issue for series 1; local
collection is {2,3}, so the claim says the issue for 1 must be closed. -/
def rem3c : Remote :=
  ⟨[⟨2, "[PW_SID:2] b", "2"⟩, ⟨3, "[PW_SID:3] c", "3"⟩],
    [⟨7, "[PW_SID:1] old"⟩], 20⟩

/-- Environment whose patch `P` fails `git am` with diagnostics `outA`/`errA`. -/
def envA4 : Env :=
  { baseBranch := "master"
    seriesDirs := []
    seriesJson := fun _ => none
    patchDirs := fun _ => []
    amResult := fun _ => (1, "outA", "errA")
    pushCode := fun _ => 0
    patchDetails := fun _ _ => some ⟨"tP", "mP", "uP"⟩
    revParseOk := true
    emailToken := false }

/-- Same as `envA4` but the failing patch reports diagnostics `outB`/`errB`. -/
def envB4 : Env :=
  { baseBranch := "master"
    seriesDirs := []
    seriesJson := fun _ => none
    patchDirs := fun _ => []
    amResult := fun _ => (1, "outB", "errB")
    pushCode := fun _ => 0
    patchDetails := fun _ _ => some ⟨"tP", "mP", "uP"⟩
    revParseOk := true
    emailToken := false }

/-- The series used by the apply-engine fixtures. -/
def series4 : SeriesData := ⟨44, "n44"⟩

/-- Three-patch environment in which `A` and `C` apply but `B` fails. -/
def w4env : Env :=
  { baseBranch := "master"
    seriesDirs := ["/series/44"]
    seriesJson := fun p => if p = "/series/44" then some series4 else none
    patchDirs := fun p => if p = "/series/44" then ["A", "B", "C"] else []
    amResult := fun pf => if pf = "B" then (1, "ob", "eb") else (0, "", "")
    pushCode := fun _ => 0
    patchDetails := fun _ _ => some ⟨"tB", "mB", "uB"⟩
    revParseOk := true
    emailToken := true }

/-- One series whose patches apply but whose push exits nonzero. -/
def env5 : Env :=
  { baseBranch := "master"
    seriesDirs := ["/series/5"]
    seriesJson := fun p => if p = "/series/5" then some ⟨5, "n5"⟩ else none
    patchDirs := fun p => if p = "/series/5" then ["/series/5/patches/0001"] else []
    amResult := fun _ => (0, "", "")
    pushCode := fun _ => 1
    patchDetails := fun _ _ => none
    revParseOk := true
    emailToken := false }

/-- An empty remote for the push-failure scenario. -/
def rem5 : Remote := ⟨[], [], 30⟩

/-- Two series; the first one fails to apply and its `Subject:` line
matches no patch-detail record, so `find_patch_details` returns `None`. -/
def env7 : Env :=
  { baseBranch := "master"
    seriesDirs := ["/series/1", "/series/2"]
    seriesJson := fun p =>
      if p = "/series/1" then some ⟨1, "n1"⟩
      else if p = "/series/2" then some ⟨2, "n2"⟩
      else none
    patchDirs := fun p =>
      if p = "/series/1" then ["/series/1/patches/0001"]
      else if p = "/series/2" then ["/series/2/patches/0001"]
      else []
    amResult := fun pf => if pf = "/series/1/patches/0001" then (1, "o1", "e1") else (0, "", "")
    pushCode := fun _ => 0
    patchDetails := fun _ _ => none
    revParseOk := true
    emailToken := true }

/-- An empty remote for the notification-crash scenario. -/
def rem7 : Remote := ⟨[], [], 40⟩

/-- Variant of `env7` in which patch details resolve but the mail
credential (`EMAIL_TOKEN`) is absent. -/
def env7b : Env :=
  { env7 with
    emailToken := false
    patchDetails := fun _ _ => some ⟨"t", "m", "u"⟩ }

/-- One healthy series in `/series/5`, used to exhibit the `pr_msg` write. -/
def env10 : Env :=
  { baseBranch := "master"
    seriesDirs := ["/series/5"]
    seriesJson := fun p => if p = "/series/5" then some ⟨5, "n5"⟩ else none
    patchDirs := fun p => if p = "/series/5" then ["/series/5/patches/0001"] else []
    amResult := fun _ => (0, "", "")
    pushCode := fun _ => 0
    patchDetails := fun _ _ => none
    revParseOk := true
    emailToken := false }

/-- An empty remote for the `pr_msg` write scenario. -/
def rem10 : Remote := ⟨[], [], 50⟩

/-- Effect predicate for the frame property: every file the engine writes
is the PR message file `pr_msg` of one of the series directories. -/
def fsWriteOk (env : Env) (e : Effect) : Bool :=
  match e with
  | .writeFile fp => env.seriesDirs.any fun d => fp = d ++ "/pr_msg"
  | _ => true

/-- The effect trace inside an `apply_patches` outcome. -/
def effsOf : ApplyRes → List Effect
  | .ok es => es
  | .fail _ es => es
  | .crash es => es

/-- The effect trace inside a per-series outcome. -/
def sOutEffs : SOut → List Effect
  | .skip => []
  | .crash es => es
  | .pr es _ => es
  | .issue es _ => es

/-- The effect constructors the apply engine can emit: `git am`,
`git am --abort`, the notification email, and the failure issue. -/
def applyEmitted (e : Effect) : Bool :=
  match e with
  | .gitAm _ => true
  | .gitAmAbort => true
  | .email _ => true
  | .createIssue _ _ => true
  | _ => false

/-- Effect predicate: not a push and not a PR creation. -/
def noPushOrPr (e : Effect) : Bool :=
  match e with
  | .gitPush _ _ => false
  | .createPR _ _ _ => false
  | _ => true

/-- Combined frame predicate for a whole run: the engine never closes an
issue, and the only file it writes is a series directory's `pr_msg`. -/
def engineOk (env : Env) (e : Effect) : Bool :=
  !(isCloseIssue e) && fsWriteOk env e

/-- Hypothesis H1 of the amended idempotence statement: every series
directory path contains the decimal id of its `series.json` as a substring.
The fetch stage names each series directory by its id, so this holds for
the intended layout. -/
def dirNamedById (env : Env) : Bool :=
  env.seriesDirs.all fun p =>
    match env.seriesJson p with
    | some s => substr (toString s.id) p
    | none => true

/-- Hypothesis H2 of the amended idempotence statement: every pre-existing
open PR whose title token-matches some local series id carries a
well-formed leading marker whose id occurs in the series directory paths —
i.e. a PR that makes the loop skip a series also survives the cleanup
pass. -/
def prsWellMarked (env : Env) (prList : List PR) : Bool :=
  prList.all fun q =>
    env.seriesDirs.all fun p =>
      match env.seriesJson p with
      | some s =>
        !(isubstr (sidToken s.id) q.title) ||
          (match get_pw_sid q.title with
           | some k => find_sid_in_series k env.seriesDirs
           | none => false)
      | none => true

/-! Section: General lemmas -/

theorem chPre_append_self (l r : List Char) : chPre l (l ++ r) = true := by
  induction l with
  | nil => rfl
  | cons a as ih => simp [chPre, ih]

theorem chSub_self_append (n r : List Char) : chSub n (n ++ r) = true := by
  cases n with
  | nil =>
    cases r with
    | nil => rfl
    | cons c cs => simp [chSub, chPre]
  | cons a as =>
    rw [List.cons_append, chSub]
    exact (Bool.or_eq_true _ _).mpr (Or.inl (chPre_append_self (a :: as) r))

theorem chSub_cons (n t : List Char) (c : Char) (h : chSub n t = true) :
    chSub n (c :: t) = true := by
  simp [chSub, h]

theorem stripPre_append (l r : List Char) : stripPre l (l ++ r) = some r := by
  induction l with
  | nil => rfl
  | cons a as ih => simp [stripPre, ih]

theorem digitChar_isDigit (m : Nat) (h : m < 10) : (Nat.digitChar m).isDigit = true := by
  interval_cases m <;> decide

theorem toDigitsCore_digits (f : Nat) : ∀ (n : Nat) (ds : List Char),
    (∀ c ∈ ds, c.isDigit = true) → ∀ c ∈ Nat.toDigitsCore 10 f n ds, c.isDigit = true := by
  induction f with
  | zero =>
    intro n ds h c hc
    simp only [Nat.toDigitsCore] at hc
    exact h c hc
  | succ f ih =>
    intro n ds h c hc
    simp only [Nat.toDigitsCore] at hc
    by_cases h10 : n / 10 = 0
    · rw [if_pos h10, List.mem_cons] at hc
      rcases hc with hc | hc
      · subst hc; exact digitChar_isDigit _ (Nat.mod_lt _ (by norm_num))
      · exact h c hc
    · rw [if_neg h10] at hc
      refine ih (n / 10) _ ?_ c hc
      intro d hd
      rw [List.mem_cons] at hd
      rcases hd with hd | hd
      · subst hd; exact digitChar_isDigit _ (Nat.mod_lt _ (by norm_num))
      · exact h d hd

theorem toDigitsCore_ne_nil (f : Nat) : ∀ (n : Nat) (ds : List Char), ds ≠ [] →
    Nat.toDigitsCore 10 f n ds ≠ [] := by
  induction f with
  | zero => intro n ds h; simpa [Nat.toDigitsCore] using h
  | succ f ih =>
    intro n ds h
    simp only [Nat.toDigitsCore]
    by_cases h10 : n / 10 = 0
    · simp [h10]
    · rw [if_neg h10]
      exact ih _ _ (by simp)

theorem repr_digits (n : Nat) : ∀ c ∈ (toString n).data, c.isDigit = true := by
  intro c hc
  have hd : (toString n).data = Nat.toDigits 10 n := rfl
  rw [hd, Nat.toDigits] at hc
  exact toDigitsCore_digits _ _ _ (by simp) c hc

theorem repr_ne_nil (n : Nat) : (toString n).data ≠ [] := by
  have hd : (toString n).data = Nat.toDigits 10 n := rfl
  rw [hd, Nat.toDigits, Nat.toDigitsCore]
  by_cases h10 : n / 10 = 0
  · simp [h10]
  · rw [if_neg h10]
    exact toDigitsCore_ne_nil _ _ _ (by simp)

theorem takeWhile_all_append (p : Char → Bool) (ds l : List Char)
    (h : ∀ c ∈ ds, p c = true) : (ds ++ l).takeWhile p = ds ++ l.takeWhile p := by
  induction ds with
  | nil => simp
  | cons d ds ih =>
    have hd : p d = true := h d (by simp)
    simp [List.takeWhile_cons, hd, ih (fun c hc => h c (by simp [hc]))]

theorem dropWhile_all_append (p : Char → Bool) (ds l : List Char)
    (h : ∀ c ∈ ds, p c = true) : (ds ++ l).dropWhile p = l.dropWhile p := by
  induction ds with
  | nil => simp
  | cons d ds ih =>
    have hd : p d = true := h d (by simp)
    simp [List.dropWhile_cons, hd, ih (fun c hc => h c (by simp [hc]))]

/-- The data of a generated artifact title, split after the marker prefix. -/
theorem prTitle_data (s : SeriesData) :
    (prTitle s).data =
      "[PW_SID:".data ++ ((toString s.id).data ++ (']' :: ' ' :: s.name.data)) := by
  have h1 : ("[" : String).data = ['['] := rfl
  have h2 : ("] " : String).data = [']', ' '] := rfl
  have h3 : ("PW_SID:" : String).data = ['P', 'W', '_', 'S', 'I', 'D', ':'] := rfl
  have h4 : ("[PW_SID:" : String).data = ['[', 'P', 'W', '_', 'S', 'I', 'D', ':'] := rfl
  simp [prTitle, sidToken, String.data_append, h1, h2, h3, h4]

/-- Reduction helper: once the marker prefix strips, `get_pw_sid` is
`pwSidOf` of the remainder. -/
theorem get_pw_sid_eq (t : String) (rest : List Char)
    (h : stripPre "[PW_SID:".data t.data = some rest) :
    get_pw_sid t = pwSidOf rest := by
  unfold get_pw_sid
  rw [h]

/-- Parsing a generated title recovers the decimal series id. -/
theorem get_pw_sid_prTitle (s : SeriesData) :
    get_pw_sid (prTitle s) = some (toString s.id) := by
  rw [get_pw_sid_eq (prTitle s) ((toString s.id).data ++ (']' :: ' ' :: s.name.data))
    (by rw [prTitle_data]; exact stripPre_append _ _)]
  unfold pwSidOf
  rw [takeWhile_all_append Char.isDigit _ _ (repr_digits s.id)]
  rw [dropWhile_all_append Char.isDigit _ _ (repr_digits s.id)]
  have htw : List.takeWhile Char.isDigit (']' :: ' ' :: s.name.data) = [] := by
    simp [List.takeWhile_cons]
  have hdw : List.dropWhile Char.isDigit (']' :: ' ' :: s.name.data) =
      ']' :: ' ' :: s.name.data := by
    simp [List.dropWhile_cons]
  rw [htw, hdw, List.append_nil]
  have hne : ((toString s.id).data).isEmpty = false := by
    cases hh : (toString s.id).data with
    | nil => exact absurd hh (repr_ne_nil s.id)
    | cons a l => rfl
  simp [hne]

/-- The search token of a series id occurs (case-insensitively) in its own
generated artifact title. -/
theorem token_in_prTitle (s : SeriesData) :
    isubstr (sidToken s.id) (prTitle s) = true := by
  unfold isubstr
  have h1 : (prTitle s).data =
      '[' :: ((sidToken s.id).data ++ (']' :: ' ' :: s.name.data)) := by
    have h2 : ("[" : String).data = ['['] := rfl
    have h3 : ("] " : String).data = [']', ' '] := rfl
    simp [prTitle, String.data_append, h2, h3]
  rw [h1]
  simp only [List.map_cons, List.map_append]
  exact chSub_cons _ _ _ (chSub_self_append _ _)

theorem find_sid_in_prs_of_mem {prList : List PR} {q : PR} {i : Nat}
    (hq : q ∈ prList) (h : isubstr (sidToken i) q.title = true) :
    find_sid_in_prs prList i = true :=
  List.any_eq_true.mpr ⟨q, hq, h⟩

theorem find_sid_in_issues_of_mem {issueList : List Issue} {q : Issue} {i : Nat}
    (hq : q ∈ issueList) (h : isubstr (sidToken i) q.title = true) :
    find_sid_in_issues issueList i = true :=
  List.any_eq_true.mpr ⟨q, hq, h⟩

theorem find_sid_in_series_of_mem {paths : List String} {p k : String}
    (hp : p ∈ paths) (h : substr k p = true) :
    find_sid_in_series k paths = true :=
  List.any_eq_true.mpr ⟨p, hp, h⟩

theorem find_sid_in_issues_append_left {l r : List Issue} {i : Nat}
    (h : find_sid_in_issues l i = true) :
    find_sid_in_issues (l ++ r) i = true := by
  unfold find_sid_in_issues at h ⊢
  rw [List.any_append, h, Bool.true_or]

/-- A pull request whose title parses to a series id that occurs in the
directory paths is never closed by the cleanup pass, whether or not the
pass later crashes. -/
theorem clean_up_pr_keeps (paths : List String) (L : List PR) (q : PR) (k : String)
    (hq : q ∈ L) (hk : get_pw_sid q.title = some k)
    (hf : find_sid_in_series k paths = true) :
    q ∈ (clean_up_pr paths L).survivors := by
  induction L with
  | nil => cases hq
  | cons pr rest ih =>
    rw [List.mem_cons] at hq
    cases hgp : get_pw_sid pr.title with
    | none =>
      cases hpaths : paths with
      | nil =>
        rw [hpaths] at hf
        simp [find_sid_in_series] at hf
      | cons a as =>
        subst hpaths
        simp only [clean_up_pr, hgp]
        rcases hq with rfl | h
        · exact List.mem_cons_self _ _
        · exact List.mem_cons_of_mem _ h
    | some sid =>
      by_cases hfs : find_sid_in_series sid paths = true
      · simp only [clean_up_pr, hgp, hfs, if_true]
        rcases hq with rfl | h
        · exact List.mem_cons_self _ _
        · exact List.mem_cons_of_mem _ (ih h)
      · rcases hq with rfl | h
        · rw [hgp] at hk
          injection hk with hkk
          subst hkk
          exact absurd hf hfs
        · simp only [clean_up_pr, hgp, hfs, if_false]
          exact ih h

/-- Re-running the cleanup pass on its own survivors closes nothing. -/
theorem clean_up_pr_stable (paths : List String) (L : List PR) :
    (clean_up_pr paths (clean_up_pr paths L).survivors).effs = [] := by
  induction L with
  | nil => rfl
  | cons pr rest ih =>
    cases hgp : get_pw_sid pr.title with
    | none =>
      cases hpaths : paths with
      | nil =>
        subst hpaths
        simpa only [clean_up_pr, hgp] using ih
      | cons a as =>
        subst hpaths
        simp only [clean_up_pr, hgp]
    | some sid =>
      by_cases hfs : find_sid_in_series sid paths = true
      · simp only [clean_up_pr, hgp, hfs, if_true]
        exact ih
      · simp only [clean_up_pr, hgp, hfs, if_false]
        exact ih

/-- If every series directory is skipped, the loop produces nothing. -/
theorem runLoop_skip_all (env : Env) (prList : List PR) (issueList : List Issue)
    (dirs : List String)
    (h : ∀ p ∈ dirs, seriesStep env prList issueList p = .skip) :
    runLoop env prList issueList dirs = ⟨[], [], [], false⟩ := by
  induction dirs with
  | nil => rfl
  | cons p rest ih =>
    rw [runLoop, h p (List.mem_cons_self _ _)]
    exact ih fun q hq => h q (List.mem_cons_of_mem _ hq)

/-- A series whose step created a PR contributes its series data to the
loop's PR list, provided the loop did not crash. -/
theorem runLoop_pr_mem (env : Env) (prList : List PR) (issueList : List Issue)
    (dirs : List String) (p : String) (es : List Effect) (s : SeriesData)
    (hp : p ∈ dirs) (hnc : (runLoop env prList issueList dirs).crashed = false)
    (hs : seriesStep env prList issueList p = .pr es s) :
    s ∈ (runLoop env prList issueList dirs).prSeries := by
  induction dirs with
  | nil => cases hp
  | cons d rest ih =>
    rw [List.mem_cons] at hp
    cases hd : seriesStep env prList issueList d with
    | skip =>
      rw [runLoop, hd] at hnc ⊢
      rcases hp with rfl | h
      · rw [hd] at hs; cases hs
      · exact ih h hnc
    | crash es0 =>
      rw [runLoop, hd] at hnc
      cases hnc
    | pr es0 s0 =>
      rw [runLoop, hd] at hnc ⊢
      rcases hp with rfl | h
      · rw [hd] at hs
        injection hs with h1 h2
        subst h2
        exact List.mem_cons_self _ _
      · exact List.mem_cons_of_mem _ (ih h hnc)
    | issue es0 s0 =>
      rw [runLoop, hd] at hnc ⊢
      rcases hp with rfl | h
      · rw [hd] at hs; cases hs
      · exact ih h hnc

/-- A series whose step created an issue contributes its series data to the
loop's issue list, provided the loop did not crash. -/
theorem runLoop_issue_mem (env : Env) (prList : List PR) (issueList : List Issue)
    (dirs : List String) (p : String) (es : List Effect) (s : SeriesData)
    (hp : p ∈ dirs) (hnc : (runLoop env prList issueList dirs).crashed = false)
    (hs : seriesStep env prList issueList p = .issue es s) :
    s ∈ (runLoop env prList issueList dirs).issueSeries := by
  induction dirs with
  | nil => cases hp
  | cons d rest ih =>
    rw [List.mem_cons] at hp
    cases hd : seriesStep env prList issueList d with
    | skip =>
      rw [runLoop, hd] at hnc ⊢
      rcases hp with rfl | h
      · rw [hd] at hs; cases hs
      · exact ih h hnc
    | crash es0 =>
      rw [runLoop, hd] at hnc
      cases hnc
    | pr es0 s0 =>
      rw [runLoop, hd] at hnc ⊢
      rcases hp with rfl | h
      · rw [hd] at hs; cases hs
      · exact ih h hnc
    | issue es0 s0 =>
      rw [runLoop, hd] at hnc ⊢
      rcases hp with rfl | h
      · rw [hd] at hs
        injection hs with h1 h2
        subst h2
        exact List.mem_cons_self _ _
      · exact List.mem_cons_of_mem _ (ih h hnc)

/-- A loop that did not crash contains no crashing series. -/
theorem runLoop_no_crash_step (env : Env) (prList : List PR) (issueList : List Issue)
    (dirs : List String) (p : String) (es : List Effect)
    (hp : p ∈ dirs) (hnc : (runLoop env prList issueList dirs).crashed = false)
    (hs : seriesStep env prList issueList p = .crash es) : False := by
  induction dirs with
  | nil => cases hp
  | cons d rest ih =>
    rw [List.mem_cons] at hp
    cases hd : seriesStep env prList issueList d with
    | skip =>
      rw [runLoop, hd] at hnc
      rcases hp with rfl | h
      · rw [hd] at hs; cases hs
      · exact ih h hnc
    | crash es0 =>
      rw [runLoop, hd] at hnc
      cases hnc
    | pr es0 s0 =>
      rw [runLoop, hd] at hnc
      rcases hp with rfl | h
      · rw [hd] at hs; cases hs
      · exact ih h hnc
    | issue es0 s0 =>
      rw [runLoop, hd] at hnc
      rcases hp with rfl | h
      · rw [hd] at hs; cases hs
      · exact ih h hnc

/-- Numbering preserves membership: each series of the list appears, with
some number, among the numbered pull requests. -/
theorem numberPRs_mem (s : SeriesData) (ss : List SeriesData) (h : s ∈ ss) :
    ∀ n : Nat, ∃ m : Nat, (⟨m, prTitle s, toString s.id⟩ : PR) ∈ numberPRs n ss := by
  induction ss with
  | nil => cases h
  | cons a rest ih =>
    intro n
    rw [List.mem_cons] at h
    rcases h with rfl | h
    · exact ⟨n, List.mem_cons_self _ _⟩
    · obtain ⟨m, hm⟩ := ih h (n + 1)
      exact ⟨m, List.mem_cons_of_mem _ hm⟩

/-- Numbering preserves membership: each series of the list appears, with
some number, among the numbered issues. -/
theorem numberIssues_mem (s : SeriesData) (ss : List SeriesData) (h : s ∈ ss) :
    ∀ n : Nat, ∃ m : Nat, (⟨m, prTitle s⟩ : Issue) ∈ numberIssues n ss := by
  induction ss with
  | nil => cases h
  | cons a rest ih =>
    intro n
    rw [List.mem_cons] at h
    rcases h with rfl | h
    · exact ⟨n, List.mem_cons_self _ _⟩
    · obtain ⟨m, hm⟩ := ih h (n + 1)
      exact ⟨m, List.mem_cons_of_mem _ hm⟩

/-- A series with a matching open PR or issue, or with an empty patch list,
is skipped by the loop body. -/
theorem seriesStep_skip_of (env : Env) (prList : List PR) (issueList : List Issue)
    (p : String) (s : SeriesData) (hj : env.seriesJson p = some s)
    (h : find_sid_in_prs prList s.id = true
      ∨ find_sid_in_issues issueList s.id = true
      ∨ env.patchDirs p = []) :
    seriesStep env prList issueList p = .skip := by
  rcases h with hpr | hiss | hpd
  · simp [seriesStep, hj, hpr]
  · by_cases hpr : find_sid_in_prs prList s.id = true
    · simp [seriesStep, hj, hpr]
    · rw [Bool.not_eq_true] at hpr
      simp [seriesStep, hj, hpr, hiss]
  · by_cases hpr : find_sid_in_prs prList s.id = true
    · simp [seriesStep, hj, hpr]
    · rw [Bool.not_eq_true] at hpr
      by_cases hiss : find_sid_in_issues issueList s.id = true
      · simp [seriesStep, hj, hpr, hiss]
      · rw [Bool.not_eq_true] at hiss
        simp [seriesStep, hj, hpr, hiss, hpd]

/-- A series with no matching artifact and a nonempty patch list is driven:
the step ends in a PR, an issue, or a crash. -/
theorem seriesStep_drive (env : Env) (prList : List PR) (issueList : List Issue)
    (p : String) (s : SeriesData) (qf : String) (qs : List String)
    (hj : env.seriesJson p = some s)
    (hpr : find_sid_in_prs prList s.id = false)
    (hiss : find_sid_in_issues issueList s.id = false)
    (hpdl : env.patchDirs p = qf :: qs) :
    (∃ es, seriesStep env prList issueList p = .pr es s)
    ∨ (∃ es, seriesStep env prList issueList p = .issue es s)
    ∨ (∃ es, seriesStep env prList issueList p = .crash es) := by
  cases hap : apply_patches env s (qf :: qs) with
  | ok es =>
    refine Or.inl ⟨Effect.gitCheckoutB (toString s.id) ::
      (es ++ [Effect.gitPush (toString s.id) (env.pushCode (toString s.id)),
        Effect.writeFile (p ++ "/pr_msg"),
        Effect.createPR (prTitle s) env.baseBranch (toString s.id),
        Effect.gitCheckout env.baseBranch]), ?_⟩
    simp [seriesStep, hj, hpr, hiss, hpdl, hap]
  | fail c es =>
    refine Or.inr (Or.inl ⟨Effect.gitCheckoutB (toString s.id) ::
      (es ++ [Effect.gitCheckout env.baseBranch]), ?_⟩)
    simp [seriesStep, hj, hpr, hiss, hpdl, hap]
  | crash es =>
    refine Or.inr (Or.inr ⟨Effect.gitCheckoutB (toString s.id) :: es, ?_⟩)
    simp [seriesStep, hj, hpr, hiss, hpdl, hap]

/-- Unfolding of `dirNamedById`. -/
theorem dirNamedById_spec {env : Env} {p : String} {s : SeriesData}
    (h : dirNamedById env = true) (hp : p ∈ env.seriesDirs)
    (hj : env.seriesJson p = some s) :
    substr (toString s.id) p = true := by
  have h1 := (List.all_eq_true.mp h) p hp
  rw [hj] at h1
  exact h1

/-- Unfolding of `prsWellMarked`: a pre-existing PR that token-matches a
local series has a parseable marker whose id occurs in the series paths. -/
theorem prsWellMarked_spec {env : Env} {prList : List PR} {q : PR} {p : String}
    {s : SeriesData}
    (h : prsWellMarked env prList = true) (hq : q ∈ prList)
    (hp : p ∈ env.seriesDirs) (hj : env.seriesJson p = some s)
    (ht : isubstr (sidToken s.id) q.title = true) :
    ∃ k, get_pw_sid q.title = some k ∧ find_sid_in_series k env.seriesDirs = true := by
  have h1 := (List.all_eq_true.mp h) q hq
  have h2 := (List.all_eq_true.mp h1) p hp
  rw [hj] at h2
  simp only [ht, Bool.not_true, Bool.false_or] at h2
  cases hgp : get_pw_sid q.title with
  | none => rw [hgp] at h2; cases h2
  | some k => rw [hgp] at h2; exact ⟨k, rfl, h2⟩

/-- The shape of a completed-loop run of `manage_pull_request`. -/
theorem manage_no_crash_eq (env : Env) (r : Remote)
    (h : (loopOf env r).crashed = false) :
    manage_pull_request env r =
      ⟨(Effect.gitCheckout env.baseBranch :: (loopOf env r).effs) ++ (cleanOf env r).effs,
        ⟨(cleanOf env r).survivors, r.issues ++ createdIssuesOf env r, nextOf env r⟩,
        !(cleanOf env r).crashed⟩ := by
  simp only [manage_pull_request, h]
  rfl

/-- A run whose loop crashed is not completed. -/
theorem manage_crash_eq (env : Env) (r : Remote)
    (h : (loopOf env r).crashed = true) :
    (manage_pull_request env r).completed = false := by
  simp only [manage_pull_request, h]
  rfl

/-- The notifier emits only apply-engine effects (in fact only an email). -/
theorem notify_am_fail_emitted (env : Env) (pf : String) (s : SeriesData)
    (nes : List Effect) (h : notify_am_fail env pf s = some nes) :
    ∀ e ∈ nes, applyEmitted e = true := by
  unfold notify_am_fail at h
  cases hd : env.patchDetails pf s with
  | none =>
    rw [hd] at h
    cases hrev : env.revParseOk with
    | true => rw [hrev] at h; simp at h
    | false =>
      rw [hrev] at h
      simp at h
      subst h
      intro e he
      cases he
  | some pd =>
    rw [hd] at h
    cases hrev : env.revParseOk with
    | false =>
      rw [hrev] at h
      simp at h
      subst h
      intro e he
      cases he
    | true =>
      rw [hrev] at h
      cases htok : env.emailToken with
      | false =>
        rw [htok] at h
        simp at h
        subst h
        intro e he
        cases he
      | true =>
        rw [htok] at h
        simp at h
        subst h
        intro e he
        rw [List.mem_singleton] at he
        subst he
        rfl

/-- The apply engine emits only `git am`, `git am --abort`, email and
issue-creation effects, in every outcome. -/
theorem apply_patches_emitted (env : Env) (s : SeriesData) (patches : List String) :
    ∀ e ∈ effsOf (apply_patches env s patches), applyEmitted e = true := by
  induction patches with
  | nil => intro e he; cases he
  | cons pf rest ih =>
    intro e he
    simp only [apply_patches] at he
    by_cases h0 : (env.amResult pf).1 = 0
    · rw [if_pos h0] at he
      cases hr : apply_patches env s rest with
      | ok es =>
        rw [hr] at he
        simp only [effsOf] at he
        rw [List.mem_cons] at he
        rcases he with rfl | he
        · rfl
        · exact ih e (by rw [hr]; exact he)
      | fail c es =>
        rw [hr] at he
        simp only [effsOf] at he
        rw [List.mem_cons] at he
        rcases he with rfl | he
        · rfl
        · exact ih e (by rw [hr]; exact he)
      | crash es =>
        rw [hr] at he
        simp only [effsOf] at he
        rw [List.mem_cons] at he
        rcases he with rfl | he
        · rfl
        · exact ih e (by rw [hr]; exact he)
    · rw [if_neg h0] at he
      cases hn : notify_am_fail env pf s with
      | none =>
        rw [hn] at he
        simp only [effsOf] at he
        rw [List.mem_cons, List.mem_singleton] at he
        rcases he with rfl | rfl
        · rfl
        · rfl
      | some nes =>
        rw [hn] at he
        simp only [effsOf] at he
        simp only [List.append_assoc, List.mem_append, List.mem_cons,
          List.mem_singleton] at he
        rcases he with (rfl | rfl | he0) | he | rfl | he0
        · rfl
        · rfl
        · cases he0
        · exact notify_am_fail_emitted env pf s nes hn e he
        · rfl
        · cases he0

/-- Apply-engine effects satisfy the whole-run frame predicate. -/
theorem engineOk_of_emitted (env : Env) (e : Effect) (h : applyEmitted e = true) :
    engineOk env e = true := by
  cases e <;> first
    | rfl
    | exact absurd h (by simp [applyEmitted])

/-- Apply-engine effects include no push and no PR creation. -/
theorem noPushOrPr_of_emitted (e : Effect) (h : applyEmitted e = true) :
    noPushOrPr e = true := by
  cases e <;> first
    | rfl
    | exact absurd h (by simp [applyEmitted])

/-- Per-series effects satisfy the whole-run frame predicate, for series
directories drawn from the environment's list. -/
theorem seriesStep_engineOk (env : Env) (prList : List PR) (issueList : List Issue)
    (p : String) (hp : p ∈ env.seriesDirs) :
    ∀ e ∈ sOutEffs (seriesStep env prList issueList p), engineOk env e = true := by
  intro e he
  cases hj : env.seriesJson p with
  | none => simp [seriesStep, hj, sOutEffs] at he
  | some s =>
    by_cases hpr : find_sid_in_prs prList s.id = true
    · simp [seriesStep, hj, hpr, sOutEffs] at he
    rw [Bool.not_eq_true] at hpr
    by_cases hiss : find_sid_in_issues issueList s.id = true
    · simp [seriesStep, hj, hpr, hiss, sOutEffs] at he
    rw [Bool.not_eq_true] at hiss
    cases hpd : env.patchDirs p with
    | nil => simp [seriesStep, hj, hpr, hiss, hpd, sOutEffs] at he
    | cons qf qs =>
      have hwf : engineOk env (Effect.writeFile (p ++ "/pr_msg")) = true := by
        simp only [engineOk, isCloseIssue, fsWriteOk, Bool.not_false, Bool.true_and]
        exact List.any_eq_true.mpr ⟨p, hp, by simp⟩
      cases hap : apply_patches env s (qf :: qs) with
      | ok es =>
        simp only [seriesStep, hj, hpr, hiss, hpd, hap, sOutEffs,
          Bool.false_eq_true, if_false] at he
        rw [List.mem_append] at he
        rcases he with he | he
        · rw [List.mem_cons] at he
          rcases he with rfl | he
          · rfl
          · exact engineOk_of_emitted env e
              (apply_patches_emitted env s (qf :: qs) e (by rw [hap]; exact he))
        · simp only [List.mem_cons] at he
          rcases he with rfl | rfl | rfl | rfl | he0
          · rfl
          · exact hwf
          · rfl
          · rfl
          · cases he0
      | fail c es =>
        simp only [seriesStep, hj, hpr, hiss, hpd, hap, sOutEffs,
          Bool.false_eq_true, if_false] at he
        rw [List.mem_append] at he
        rcases he with he | he
        · rw [List.mem_cons] at he
          rcases he with rfl | he
          · rfl
          · exact engineOk_of_emitted env e
              (apply_patches_emitted env s (qf :: qs) e (by rw [hap]; exact he))
        · rw [List.mem_singleton] at he
          subst he
          rfl
      | crash es =>
        simp only [seriesStep, hj, hpr, hiss, hpd, hap, sOutEffs,
          Bool.false_eq_true, if_false] at he
        rw [List.mem_cons] at he
        rcases he with rfl | he
        · rfl
        · exact engineOk_of_emitted env e
            (apply_patches_emitted env s (qf :: qs) e (by rw [hap]; exact he))

/-- Loop effects satisfy the whole-run frame predicate. -/
theorem runLoop_engineOk (env : Env) (prList : List PR) (issueList : List Issue)
    (dirs : List String) (hd : ∀ p ∈ dirs, p ∈ env.seriesDirs) :
    ∀ e ∈ (runLoop env prList issueList dirs).effs, engineOk env e = true := by
  induction dirs with
  | nil => intro e he; cases he
  | cons p rest ih =>
    intro e he
    have hp : p ∈ env.seriesDirs := hd p (List.mem_cons_self _ _)
    have hrest : ∀ q ∈ rest, q ∈ env.seriesDirs :=
      fun q hq => hd q (List.mem_cons_of_mem _ hq)
    cases hs : seriesStep env prList issueList p with
    | skip =>
      rw [runLoop, hs] at he
      exact ih hrest e he
    | crash es =>
      rw [runLoop, hs] at he
      exact seriesStep_engineOk env prList issueList p hp e (by rw [hs]; exact he)
    | pr es s =>
      rw [runLoop, hs] at he
      rw [List.mem_append] at he
      rcases he with he | he
      · exact seriesStep_engineOk env prList issueList p hp e (by rw [hs]; exact he)
      · exact ih hrest e he
    | issue es s =>
      rw [runLoop, hs] at he
      rw [List.mem_append] at he
      rcases he with he | he
      · exact seriesStep_engineOk env prList issueList p hp e (by rw [hs]; exact he)
      · exact ih hrest e he

/-- Cleanup effects satisfy the whole-run frame predicate. -/
theorem clean_up_pr_engineOk (env : Env) (paths : List String) (L : List PR) :
    ∀ e ∈ (clean_up_pr paths L).effs, engineOk env e = true := by
  induction L with
  | nil => intro e he; cases he
  | cons pr rest ih =>
    intro e he
    cases hgp : get_pw_sid pr.title with
    | none =>
      cases hpaths : paths with
      | nil =>
        subst hpaths
        simp only [clean_up_pr, hgp] at he
        rw [List.mem_cons] at he
        rcases he with rfl | he
        · rfl
        rw [List.mem_cons] at he
        rcases he with rfl | he
        · rfl
        · exact ih e he
      | cons a as =>
        subst hpaths
        simp only [clean_up_pr, hgp] at he
        cases he
    | some sid =>
      by_cases hfs : find_sid_in_series sid paths = true
      · simp only [clean_up_pr, hgp, hfs, if_true] at he
        exact ih e he
      · rw [Bool.not_eq_true] at hfs
        simp only [clean_up_pr, hgp, hfs, Bool.false_eq_true, if_false] at he
        rw [List.mem_cons] at he
        rcases he with rfl | he
        · rfl
        rw [List.mem_cons] at he
        rcases he with rfl | he
        · rfl
        · exact ih e he

/-- The effect trace of a crashed-loop run. -/
theorem manage_crash_full_eq (env : Env) (r : Remote)
    (h : (loopOf env r).crashed = true) :
    manage_pull_request env r =
      ⟨Effect.gitCheckout env.baseBranch :: (loopOf env r).effs,
        ⟨r.prs ++ createdPrsOf env r, r.issues ++ createdIssuesOf env r, nextOf env r⟩,
        false⟩ := by
  simp only [manage_pull_request, h]
  rfl

/-- Every effect of a whole run satisfies the frame predicate: no
`closeIssue` is ever emitted, and the only file written is a series
directory's `pr_msg`. -/
theorem manage_engineOk (env : Env) (r0 : Remote) :
    ∀ e ∈ (manage_pull_request env r0).effects, engineOk env e = true := by
  intro e he
  by_cases hc : (loopOf env r0).crashed = true
  · rw [manage_crash_full_eq env r0 hc] at he
    rw [List.mem_cons] at he
    rcases he with rfl | he
    · rfl
    · exact runLoop_engineOk env r0.prs r0.issues env.seriesDirs (fun q hq => hq) e he
  · rw [Bool.not_eq_true] at hc
    rw [manage_no_crash_eq env r0 hc] at he
    rw [List.mem_append] at he
    rcases he with he | he
    · rw [List.mem_cons] at he
      rcases he with rfl | he
      · rfl
      · exact runLoop_engineOk env r0.prs r0.issues env.seriesDirs (fun q hq => hq) e he
    · exact clean_up_pr_engineOk env env.seriesDirs _ e he

/-- A cleanly applying head patch does not change the apply engine's
return value for the remaining patches. -/
theorem applyRet_ok_head (env : Env) (s : SeriesData) (pf : String)
    (rest : List String) (h0 : (env.amResult pf).1 = 0) :
    applyRet env s (pf :: rest) = applyRet env s rest := by
  cases hr : apply_patches env s rest with
  | ok es => simp [applyRet, apply_patches, h0, hr]
  | fail c es => simp [applyRet, apply_patches, h0, hr]
  | crash es => simp [applyRet, apply_patches, h0, hr]

/-- A failing head patch ends the engine immediately: the run returns the
failing code (or dies in the notifier). -/
theorem applyRet_fail_head (env : Env) (s : SeriesData) (pf : String)
    (rest : List String) (h0 : (env.amResult pf).1 ≠ 0) :
    applyRet env s (pf :: rest) =
      match notify_am_fail env pf s with
      | none => none
      | some _ => some (env.amResult pf).1 := by
  cases hn : notify_am_fail env pf s with
  | none => simp [applyRet, apply_patches, h0, hn]
  | some nes => simp [applyRet, apply_patches, h0, hn]

/-- The apply engine returns `0` exactly when every patch applies cleanly. -/
theorem applyRet_zero_iff (env : Env) (s : SeriesData) (patches : List String) :
    applyRet env s patches = some 0 ↔ ∀ pf ∈ patches, (env.amResult pf).1 = 0 := by
  induction patches with
  | nil => simp [applyRet, apply_patches]
  | cons pf rest ih =>
    by_cases h0 : (env.amResult pf).1 = 0
    · rw [applyRet_ok_head env s pf rest h0, ih]
      constructor
      · intro h q hq
        rw [List.mem_cons] at hq
        rcases hq with rfl | hq
        · exact h0
        · exact h q hq
      · intro h q hq
        exact h q (List.mem_cons_of_mem _ hq)
    · rw [applyRet_fail_head env s pf rest h0]
      constructor
      · intro h
        exfalso
        cases hn : notify_am_fail env pf s with
        | none => rw [hn] at h; cases h
        | some nes =>
          rw [hn] at h
          injection h with h1
          exact h0 h1
      · intro h
        exact absurd (h pf (List.mem_cons_self _ _)) h0

/-- The first failing patch determines the whole outcome of the engine:
patches before it are applied in order, the apply is aborted, the notifier
runs, the failure issue carrying the failing patch's stdout and stderr is
created, and no later patch is attempted. -/
theorem apply_patches_first_fail (env : Env) (s : SeriesData) (good : List String)
    (bad : String) (rest : List String) (pd : PatchInfo)
    (hg : ∀ pf ∈ good, (env.amResult pf).1 = 0)
    (hb : (env.amResult bad).1 ≠ 0)
    (hpd : env.patchDetails bad s = some pd)
    (hrev : env.revParseOk = true) :
    apply_patches env s (good ++ bad :: rest) =
      .fail (env.amResult bad).1
        (good.map Effect.gitAm ++
          ([Effect.gitAm bad, Effect.gitAmAbort] ++
            (if env.emailToken then [Effect.email pd.name] else []) ++
            [Effect.createIssue (prTitle s)
              (issueBody (env.amResult bad).2.1 (env.amResult bad).2.2)])) := by
  induction good with
  | nil =>
    simp only [List.nil_append, List.map_nil]
    cases htok : env.emailToken with
    | false => simp [apply_patches, hb, notify_am_fail, hpd, hrev, htok]
    | true => simp [apply_patches, hb, notify_am_fail, hpd, hrev, htok]
  | cons g gs ih =>
    have h0 : (env.amResult g).1 = 0 := hg g (List.mem_cons_self _ _)
    have ih2 := ih fun pf hpf => hg pf (List.mem_cons_of_mem _ hpf)
    rw [List.cons_append]
    simp only [apply_patches, h0, if_pos]
    rw [ih2]
    simp

/-- The failure path of the per-series step pushes nothing and creates no
pull request. -/
theorem seriesStep_issue_noPush (env : Env) (prList : List PR)
    (issueList : List Issue) (p : String) (es : List Effect) (s : SeriesData)
    (h : seriesStep env prList issueList p = .issue es s) :
    es.all noPushOrPr = true := by
  cases hj : env.seriesJson p with
  | none => simp [seriesStep, hj] at h
  | some s0 =>
    by_cases hpr : find_sid_in_prs prList s0.id = true
    · simp [seriesStep, hj, hpr] at h
    rw [Bool.not_eq_true] at hpr
    by_cases hiss : find_sid_in_issues issueList s0.id = true
    · simp [seriesStep, hj, hpr, hiss] at h
    rw [Bool.not_eq_true] at hiss
    cases hpd : env.patchDirs p with
    | nil => simp [seriesStep, hj, hpr, hiss, hpd] at h
    | cons qf qs =>
      cases hap : apply_patches env s0 (qf :: qs) with
      | ok es2 => simp [seriesStep, hj, hpr, hiss, hpd, hap] at h
      | crash es2 => simp [seriesStep, hj, hpr, hiss, hpd, hap] at h
      | fail c es2 =>
        simp only [seriesStep, hj, hpr, hiss, hpd, hap,
          Bool.false_eq_true, if_false] at h
        injection h with h1 h2
        subst h1
        have hes2 : es2.all noPushOrPr = true :=
          List.all_eq_true.mpr fun e he => noPushOrPr_of_emitted e
            (apply_patches_emitted env s0 (qf :: qs) e (by rw [hap]; exact he))
        simp only [List.all_append, List.all_cons, List.all_nil, hes2]
        rfl

/-- Header lines — nonblank, without three dashes — are scanned over
without being collected. -/
theorem collectMsg_headers (headers rest : List String)
    (hH : ∀ h ∈ headers, (stripLead h).data ≠ [] ∧ dash3 (stripLead h) = false) :
    collectMsg false (headers ++ rest) = collectMsg false rest := by
  induction headers with
  | nil => rfl
  | cons hd hs ih =>
    obtain ⟨hne, hdash⟩ := hH hd (List.mem_cons_self _ _)
    have hie : (stripLead hd).data.isEmpty = false := by
      cases hx : (stripLead hd).data with
      | nil => exact absurd hx hne
      | cons a l => rfl
    rw [List.cons_append, collectMsg]
    simp only [hie, hdash, Bool.not_false, Bool.false_and, Bool.false_eq_true, if_false]
    exact ih fun h hh => hH h (List.mem_cons_of_mem _ hh)

/-- After the first blank line, body lines are collected verbatim (leading
blanks stripped) until the first line containing three dashes, and
everything from that line on — the diffstat — is excluded. -/
theorem collectMsg_body (blankL b1 b2 : String) (ds : List String)
    (hblank : (stripLead blankL).data = [])
    (hb1 : dash3 (stripLead b1) = false)
    (hb2 : dash3 (stripLead b2) = false) :
    collectMsg false (blankL :: b1 :: b2 :: "---" :: ds) =
      [stripLead b1, stripLead b2] := by
  have hie : (stripLead blankL).data.isEmpty = true := by rw [hblank]; rfl
  have hdash : dash3 (stripLead "---") = true := by decide
  rw [collectMsg]
  simp only [hie, Bool.not_false, Bool.true_and, if_true]
  rw [collectMsg]
  simp only [hb1, Bool.not_true, Bool.and_false, Bool.false_eq_true, if_false, if_true]
  rw [collectMsg]
  simp only [hb2, Bool.not_true, Bool.and_false, Bool.false_eq_true, if_false, if_true]
  rw [collectMsg]
  simp only [hdash, Bool.not_true, Bool.and_false, Bool.false_eq_true, if_false, if_true]

/-! Section: Counterexamples and failing-input evaluations -/

/-- Claim C1, counterexample.  Running the reconciler twice on unchanged
local and remote state is not always mutation-free: with local series 12
(directory `/series/12`) and a pre-existing open PR titled `[PW_SID:123] t`,
the first run skips series 12 (the token `PW_SID:12` is a substring of
`PW_SID:123`) and then its cleanup pass closes that PR (sid `123` occurs in
no series path), so the second run drives series 12 again and performs
mutating calls (a successful push and a PR creation). -/
theorem c1_counterexample :
    ((manage_pull_request cexEnv1
        (manage_pull_request cexEnv1 cexR1).remote).effects.filter isMutation) ≠ [] := by
  decide

/-- Claim C3, counterexample.  The cleanup pass does not examine issues:
with local series {2,3}, open PRs for 2 and 3, and an open issue carrying
series id 1, the run closes nothing (no mutating effect at all) and the
issue for the vanished series 1 is still open afterwards, contrary to the
claim that exactly the artifact for id 1 is closed. -/
theorem c3_counterexample :
    ((manage_pull_request env3 rem3c).effects.filter isMutation) = []
    ∧ (⟨7, "[PW_SID:1] old"⟩ : Issue) ∈ (manage_pull_request env3 rem3c).remote.issues := by
  decide

/-- Claim C4, counterexample.  The Python `apply_patches` returns only the
failing exit code; the failing patch's stdout and stderr are not part of
the returned value.  Two environments whose failing patch produces
different diagnostics give the same return value, so the return cannot
carry the diagnostics. -/
theorem c4_counterexample :
    applyRet envA4 series4 ["P"] = applyRet envB4 series4 ["P"]
    ∧ (envA4.amResult "P").2.1 ≠ (envB4.amResult "P").2.1
    ∧ (envA4.amResult "P").2.2 ≠ (envB4.amResult "P").2.2
    ∧ (envA4.amResult "P").1 ≠ 0 := by
  decide

/-- Claim C5, failing-input evaluation.  When the push of branch `5` exits
nonzero, `manage_pull_request` still creates the pull request: the
`except subprocess.CalledProcessError` handler is dead code because `git`
returns a tuple instead of raising, and the push's return value is
discarded. -/
theorem c5_push_failure_still_creates_pr :
    Effect.gitPush "5" 1 ∈ (manage_pull_request env5 rem5).effects
    ∧ Effect.createPR (prTitle ⟨5, "n5"⟩) "master" "5"
        ∈ (manage_pull_request env5 rem5).effects := by
  decide

/-- Claim C6, failing-input evaluation.  Series-id extraction on a title
without the `[PW_SID:<id>]` marker correctly returns `none`, but the
cleanup pass then passes `None` to `find_sid_in_series`, whose
`re.search(None, path)` raises `TypeError` on the first path when the
series directory list is nonempty — aborting the pass rather than leaving
the artifact untouched — and when the directory list is empty the unmarked
PR is closed and its branch deleted. -/
theorem c6_unmarked_title_crashes_cleanup :
    get_pw_sid "Bump version to 5.66" = none
    ∧ (clean_up_pr ["/series/1"] [⟨9, "Bump version to 5.66", "feature-x"⟩]).crashed = true
    ∧ (clean_up_pr ["/series/1"] [⟨9, "Bump version to 5.66", "feature-x"⟩]).effs = []
    ∧ (clean_up_pr [] [⟨9, "Bump version to 5.66", "feature-x"⟩]).effs
        = [Effect.closePR 9, Effect.deleteBranch "feature-x"] := by
  decide

/-- Claim C7, failing-input evaluation.  When `find_patch_details` returns
`None` (and `git rev-parse` succeeded), `notify_am_fail` only logs and then
dereferences `patch['name']`, raising `TypeError`: the run aborts, series 2
is never processed and not even the failure issue for series 1 is created.
With patch details present but the `EMAIL_TOKEN` credential absent, the
notifier correctly no-ops (`some []`, no effect, no abort). -/
theorem c7_notify_crash_aborts_run :
    (manage_pull_request env7 rem7).completed = false
    ∧ Effect.gitCheckoutB "2" ∉ (manage_pull_request env7 rem7).effects
    ∧ ((manage_pull_request env7 rem7).effects.all fun e =>
        match e with
        | .createIssue _ _ => false
        | _ => true) = true
    ∧ notify_am_fail env7b "/series/1/patches/0001" ⟨1, "n1"⟩ = some [] := by
  decide

/-- Claim C8, counterexample.  The exit code in the returned triple is not
always the subprocess's exit status: a process that exits 0 but writes to
stderr is reported with exit code 1. -/
theorem c8_counterexample :
    git (some (0, "ok", "warning")) = GitRet.triple 1 "ok" "warning"
    ∧ GitRet.triple 1 "ok" "warning" ≠ GitRet.triple 0 "ok" "warning" := by
  decide

/-- Claim C1, amended.  Running the reconciler twice in succession with no
change to the local series collection and no change to the remote state
between the runs performs no remote-mutating call in the second run,
provided (H1) each series directory path contains its series id (the
layout the fetch stage produces), (H2) every pre-existing open PR whose
title token-matches a local series id carries a well-formed leading
`[PW_SID:<id>]` marker whose id occurs in the series paths (so the PR that
makes the loop skip a series is not closed by the cleanup pass), and (H3)
the first run ran to completion.  Then the second run creates no pull
request, creates no issue, pushes no branch, and closes no artifact. -/
theorem c1_idempotent_amended (env : Env) (r0 : Remote)
    (h1 : dirNamedById env = true)
    (h2 : prsWellMarked env r0.prs = true)
    (h3 : (manage_pull_request env r0).completed = true) :
    ((manage_pull_request env
        (manage_pull_request env r0).remote).effects.filter isMutation) = [] := by
  have hnc : (loopOf env r0).crashed = false := by
    by_contra hc
    rw [Bool.not_eq_false] at hc
    rw [manage_crash_eq env r0 hc] at h3
    cases h3
  have hM := manage_no_crash_eq env r0 hnc
  have hr1prs : (manage_pull_request env r0).remote.prs = (cleanOf env r0).survivors := by
    rw [hM]
  have hr1iss : (manage_pull_request env r0).remote.issues =
      r0.issues ++ createdIssuesOf env r0 := by
    rw [hM]
  have hskip : ∀ p ∈ env.seriesDirs,
      seriesStep env (manage_pull_request env r0).remote.prs
        (manage_pull_request env r0).remote.issues p = .skip := by
    intro p hp
    cases hj : env.seriesJson p with
    | none => simp [seriesStep, hj]
    | some s =>
      apply seriesStep_skip_of env _ _ p s hj
      by_cases hpr1 : find_sid_in_prs (manage_pull_request env r0).remote.prs s.id = true
      · exact Or.inl hpr1
      by_cases hiss1 : find_sid_in_issues (manage_pull_request env r0).remote.issues s.id = true
      · exact Or.inr (Or.inl hiss1)
      by_cases hpd : env.patchDirs p = []
      · exact Or.inr (Or.inr hpd)
      exfalso
      by_cases hpr0 : find_sid_in_prs r0.prs s.id = true
      · obtain ⟨q, hq, hqt⟩ := List.any_eq_true.mp hpr0
        obtain ⟨k, hk, hkf⟩ := prsWellMarked_spec h2 hq hp hj hqt
        have hqin : q ∈ r0.prs ++ createdPrsOf env r0 := List.mem_append_left _ hq
        have hsurv : q ∈ (cleanOf env r0).survivors :=
          clean_up_pr_keeps env.seriesDirs _ q k hqin hk hkf
        rw [hr1prs] at hpr1
        exact hpr1 (find_sid_in_prs_of_mem hsurv hqt)
      by_cases hiss0 : find_sid_in_issues r0.issues s.id = true
      · rw [hr1iss] at hiss1
        exact hiss1 (find_sid_in_issues_append_left hiss0)
      rw [Bool.not_eq_true] at hpr0 hiss0
      cases hpdl : env.patchDirs p with
      | nil => exact hpd hpdl
      | cons qf qs =>
        rcases seriesStep_drive env r0.prs r0.issues p s qf qs hj hpr0 hiss0 hpdl with
          ⟨es, hstep⟩ | ⟨es, hstep⟩ | ⟨es, hstep⟩
        · have hmem := runLoop_pr_mem env r0.prs r0.issues env.seriesDirs p es s hp hnc hstep
          obtain ⟨m, hmPR⟩ := numberPRs_mem s _ hmem r0.next
          have hin : (⟨m, prTitle s, toString s.id⟩ : PR) ∈ r0.prs ++ createdPrsOf env r0 :=
            List.mem_append_right _ hmPR
          have hsurv : (⟨m, prTitle s, toString s.id⟩ : PR) ∈ (cleanOf env r0).survivors :=
            clean_up_pr_keeps env.seriesDirs _ _ (toString s.id) hin
              (get_pw_sid_prTitle s)
              (find_sid_in_series_of_mem hp (dirNamedById_spec h1 hp hj))
          rw [hr1prs] at hpr1
          exact hpr1 (find_sid_in_prs_of_mem hsurv (token_in_prTitle s))
        · have hmem := runLoop_issue_mem env r0.prs r0.issues env.seriesDirs p es s hp hnc hstep
          obtain ⟨m, hmIss⟩ :=
            numberIssues_mem s _ hmem (r0.next + (loopOf env r0).prSeries.length)
          have hin : (⟨m, prTitle s⟩ : Issue) ∈ r0.issues ++ createdIssuesOf env r0 :=
            List.mem_append_right _ hmIss
          rw [hr1iss] at hiss1
          exact hiss1 (find_sid_in_issues_of_mem hin (token_in_prTitle s))
        · exact runLoop_no_crash_step env r0.prs r0.issues env.seriesDirs p es hp hnc hstep
  have hloop2 : loopOf env (manage_pull_request env r0).remote = ⟨[], [], [], false⟩ :=
    runLoop_skip_all env _ _ env.seriesDirs hskip
  have hcrash2 : (loopOf env (manage_pull_request env r0).remote).crashed = false := by
    rw [hloop2]
  have hcre2 : createdPrsOf env (manage_pull_request env r0).remote = [] := by
    rw [createdPrsOf, hloop2]
    rfl
  have hcleff2 : (cleanOf env (manage_pull_request env r0).remote).effs = [] := by
    rw [cleanOf, hcre2, List.append_nil, hr1prs]
    exact clean_up_pr_stable env.seriesDirs _
  rw [manage_no_crash_eq env (manage_pull_request env r0).remote hcrash2]
  simp [hloop2, hcleff2, isMutation]

/-- Claim C1, witness for the amended statement: a concrete healthy layout
(one series in `/series/7`, empty remote) satisfies H1, H2 and H3, and the
second run indeed performs no mutating call. -/
theorem c1_idempotent_amended_witness :
    dirNamedById wEnv1 = true ∧ prsWellMarked wEnv1 wR1.prs = true
    ∧ (manage_pull_request wEnv1 wR1).completed = true
    ∧ ((manage_pull_request wEnv1
        (manage_pull_request wEnv1 wR1).remote).effects.filter isMutation) = [] :=
  ⟨by decide, by decide, by decide,
    c1_idempotent_amended wEnv1 wR1 (by decide) (by decide) (by decide)⟩

/-- Claim C10, counterexample.  The engine does write into a series
directory: a successful reconciliation of series 5 writes the PR message
file `/series/5/pr_msg` inside the series directory `/series/5`. -/
theorem c10_counterexample :
    "/series/5" ∈ env10.seriesDirs
    ∧ Effect.writeFile "/series/5/pr_msg" ∈ (manage_pull_request env10 rem10).effects := by
  decide

/-! Section: Claim theorems -/

/-- Claim C2: for every local series whose id is carried —
case-insensitively, as the token `PW_SID:<id>` — by the title of some open
PR in the PR snapshot, or by the title of some open issue in the issue
snapshot, the loop body skips the series entirely: no branch creation, no
patch application, no push (the step is `skip`, which contributes no
effect). -/
theorem c2_skip_on_existing_artifact (env : Env) (prList : List PR)
    (issueList : List Issue) (p : String) (s : SeriesData)
    (hj : env.seriesJson p = some s)
    (h : (∃ q ∈ prList, isubstr (sidToken s.id) q.title = true)
      ∨ (∃ q ∈ issueList, isubstr (sidToken s.id) q.title = true)) :
    seriesStep env prList issueList p = .skip := by
  apply seriesStep_skip_of env prList issueList p s hj
  rcases h with ⟨q, hq, ht⟩ | ⟨q, hq, ht⟩
  · exact Or.inl (find_sid_in_prs_of_mem hq ht)
  · exact Or.inr (Or.inl (find_sid_in_issues_of_mem hq ht))

/-- Claim C2, witness: series 40 with an open PR titled `[pw_sid:40] x`
(lower case, exercising the case-insensitive match) is skipped. -/
theorem c2_skip_on_existing_artifact_witness :
    env2w.seriesJson "/series/40" = some ⟨40, "x"⟩
    ∧ (∃ q ∈ [(⟨3, "[pw_sid:40] x", "40"⟩ : PR)],
        isubstr (sidToken 40) q.title = true)
    ∧ seriesStep env2w [⟨3, "[pw_sid:40] x", "40"⟩] [] "/series/40" = .skip :=
  ⟨by decide, by decide,
    c2_skip_on_existing_artifact env2w [⟨3, "[pw_sid:40] x", "40"⟩] []
      "/series/40" ⟨40, "x"⟩ (by decide) (Or.inl (by decide))⟩

/-- Claim C3, amended.  The cleanup pass examines only the open pull
requests: a PR whose title's series id matches no current series directory
is closed and its head branch deleted, but `clean_up_issues` is never
invoked, so no issue is ever closed (first conjunct: no run emits a
`closeIssue` effect).  On the concrete convergence scenario — remote PRs
for series 1, 2, 3 and local series {2, 3} — exactly the PR for series 1
is closed (with its branch deleted) and the PRs for 2 and 3 remain open. -/
theorem c3_cleanup_amended :
    (∀ (env : Env) (r0 : Remote),
      ((manage_pull_request env r0).effects.filter isCloseIssue) = [])
    ∧ ((manage_pull_request env3 rem3a).effects.filter isMutation)
        = [Effect.closePR 1, Effect.deleteBranch "1"]
    ∧ (manage_pull_request env3 rem3a).remote.prs
        = [⟨2, "[PW_SID:2] b", "2"⟩, ⟨3, "[PW_SID:3] c", "3"⟩] := by
  refine ⟨fun env r0 => ?_, by decide, by decide⟩
  rw [List.filter_eq_nil_iff]
  intro e he
  have h := manage_engineOk env r0 e he
  rw [engineOk, Bool.and_eq_true] at h
  have h1 := h.1
  rw [Bool.not_eq_true'] at h1
  simp [h1]

/-- Claim C4, amended.  The apply engine applies patches strictly in
listed order and aborts at the first failure: the engine returns `0` if and
only if every patch applies cleanly (first conjunct); when the patches are
`good ++ bad :: rest` with every `good` patch applying and `bad` failing,
the outcome is a failure carrying `bad`'s exit code whose trace applies
exactly the `good` patches and `bad`, aborts, notifies, and creates the
failure issue whose body embeds `bad`'s stdout and stderr — no patch of
`rest` is attempted, and the diagnostics travel in the created issue (and
notification), not in the return value (second conjunct); and the failure
path of the per-series step contains no push and no PR creation, so no
branch is pushed for a series whose middle patch fails (third conjunct). -/
theorem c4_apply_sequential_amended :
    (∀ (env : Env) (s : SeriesData) (patches : List String),
      applyRet env s patches = some 0 ↔ ∀ pf ∈ patches, (env.amResult pf).1 = 0)
    ∧ (∀ (env : Env) (s : SeriesData) (good : List String) (bad : String)
        (rest : List String) (pd : PatchInfo),
        (∀ pf ∈ good, (env.amResult pf).1 = 0) →
        (env.amResult bad).1 ≠ 0 →
        env.patchDetails bad s = some pd →
        env.revParseOk = true →
        apply_patches env s (good ++ bad :: rest) =
          .fail (env.amResult bad).1
            (good.map Effect.gitAm ++
              ([Effect.gitAm bad, Effect.gitAmAbort] ++
                (if env.emailToken then [Effect.email pd.name] else []) ++
                [Effect.createIssue (prTitle s)
                  (issueBody (env.amResult bad).2.1 (env.amResult bad).2.2)])))
    ∧ (∀ (env : Env) (prList : List PR) (issueList : List Issue) (p : String)
        (es : List Effect) (s : SeriesData),
        seriesStep env prList issueList p = .issue es s →
        es.all noPushOrPr = true) :=
  ⟨applyRet_zero_iff, apply_patches_first_fail, seriesStep_issue_noPush⟩

/-- Claim C4, witness: the `[A, B, C]` example with `B` failing — `A` is
applied, `B` fails and aborts, the issue carries `B`'s diagnostics, `C` is
never attempted. -/
theorem c4_apply_sequential_amended_witness :
    (∀ pf ∈ ["A"], (w4env.amResult pf).1 = 0)
    ∧ (w4env.amResult "B").1 ≠ 0
    ∧ w4env.patchDetails "B" series4 = some ⟨"tB", "mB", "uB"⟩
    ∧ w4env.revParseOk = true
    ∧ apply_patches w4env series4 (["A"] ++ "B" :: ["C"]) =
        .fail (w4env.amResult "B").1
          (["A"].map Effect.gitAm ++
            ([Effect.gitAm "B", Effect.gitAmAbort] ++
              (if w4env.emailToken then [Effect.email "tB"] else []) ++
              [Effect.createIssue (prTitle series4)
                (issueBody (w4env.amResult "B").2.1 (w4env.amResult "B").2.2)])) :=
  ⟨by decide, by decide, by decide, by decide,
    c4_apply_sequential_amended.2.1 w4env series4 ["A"] "B" ["C"]
      ⟨"tB", "mB", "uB"⟩ (by decide) (by decide) (by decide) (by decide)⟩

/-- Claim C8, amended.  The command runner always returns a value and never
raises on a nonzero exit: for a launched subprocess it returns the triple
whose exit code is the subprocess's status when that is nonzero, `1` when
the status is zero but stderr is nonempty, and `0` otherwise; when the
subprocess cannot be launched it returns the bare sentinel `-1`
(`launchFail`) instead of a triple, distinguishable from every nonzero
exit. -/
theorem c8_git_runner_amended :
    (∀ (rc : Int) (out err : String),
      git (some (rc, out, err)) =
        .triple (if rc ≠ 0 then rc else if err ≠ "" then 1 else 0) out err)
    ∧ git none = .launchFail := by
  refine ⟨fun rc out err => ?_, rfl⟩
  simp only [git]
  split_ifs <;> rfl

/-- Claim C9: the generated PR message has title
`[PW_SID:<id>] <series name>` and body the first patch's commit-message
section — for a patch file made of nonblank header lines (none containing
`---`), a blank line, two body lines, the `---` marker and a diffstat, the
body is exactly the two (left-trimmed) body lines and no diffstat content;
when a `cover_letter` file exists it is used instead of the first patch
(second conjunct). -/
theorem c9_pr_msg_body (s : SeriesData) (headers ds : List String)
    (blankL b1 b2 : String) (cover : List String)
    (hH : ∀ h ∈ headers, (stripLead h).data ≠ [] ∧ dash3 (stripLead h) = false)
    (hblank : (stripLead blankL).data = [])
    (hb1 : dash3 (stripLead b1) = false)
    (hb2 : dash3 (stripLead b2) = false) :
    generate_pr_msg s false cover (headers ++ blankL :: b1 :: b2 :: "---" :: ds)
      = ⟨prTitle s, [stripLead b1, stripLead b2]⟩
    ∧ ∀ (cl pl : List String),
        generate_pr_msg s true cl pl = ⟨prTitle s, collectMsg false cl⟩ := by
  constructor
  · unfold generate_pr_msg
    rw [if_neg (by simp)]
    rw [collectMsg_headers headers _ hH, collectMsg_body blankL b1 b2 ds hblank hb1 hb2]
  · intro cl pl
    rfl

/-- Claim C9, witness: a concrete patch file with two header lines, a
blank line, a two-line body and a diffstat. -/
theorem c9_pr_msg_body_witness :
    (∀ h ∈ ["From: a@b.c", "Subject: [PATCH] x"],
      (stripLead h).data ≠ [] ∧ dash3 (stripLead h) = false)
    ∧ (stripLead "").data = []
    ∧ dash3 (stripLead "body one") = false
    ∧ dash3 (stripLead "body two") = false
    ∧ generate_pr_msg ⟨9, "n9"⟩ false []
        (["From: a@b.c", "Subject: [PATCH] x"] ++
          "" :: "body one" :: "body two" :: "---" :: [" a.c | 1 +", "diff --git a b"])
        = ⟨prTitle ⟨9, "n9"⟩, [stripLead "body one", stripLead "body two"]⟩ :=
  ⟨by decide, by decide, by decide, by decide,
    (c9_pr_msg_body ⟨9, "n9"⟩ ["From: a@b.c", "Subject: [PATCH] x"]
      [" a.c | 1 +", "diff --git a b"] "" "body one" "body two" []
      (by decide) (by decide) (by decide) (by decide)).1⟩

/-- Claim C10, amended.  The engine treats the series directories as
read-only except for one file: the only file-system write any run performs
is the PR message file `pr_msg` inside the series directory whose PR is
being created; `series.json`, `cover_letter` and the patch files are never
created, modified or deleted. -/
theorem c10_writes_only_pr_msg_amended (env : Env) (r0 : Remote) :
    ((manage_pull_request env r0).effects.all (fsWriteOk env)) = true := by
  rw [List.all_eq_true]
  intro e he
  have h := manage_engineOk env r0 e he
  rw [engineOk, Bool.and_eq_true] at h
  exact h.2

end PwSync
